import Mathlib

/-!
Verification of the specifier classifier of
`packages/utils/node-resolver-rs/src/specifier.rs`.

Strings are embedded as `List Char`.  Rust slices strings at *byte*
offsets, while several functions in the source compute *character*
positions (`str::chars().position`); slicing at a byte offset that is
not a character boundary panics at runtime.  We model this faithfully:
`byteSplit s n` splits a string at byte offset `n` and returns `none`
exactly when Rust's `&s[..n]` / `&s[n..]` would panic.

The outcome of a Rust function that may panic and may return a
`Result` is modelled by `Outcome`.

External collaborators (per §6 of the design document: the builtin-name
registry, the percent-decoding primitive, and the generic URL parser of
the `url` crate) are parameters, bundled in `Env`.  Platform-dependent
pieces are modelled for a non-Windows host: `std::path::is_separator c`
is `c = '/'`, and the `#[cfg(windows)]` block in the CJS branch is
compiled out.
-/

/-- `SpecifierType` of specifier.rs (the interpretation context). -/
inductive SpecifierType : Type
  | esm
  | cjs
  | url
deriving DecidableEq

/-- Modelled from the spec: `ParseFlags` (the repository's `Flags`
bitfield lives outside the mirrored sources).  Per §3 it has an
`npm:`-scheme toggle and an absolute-specifier toggle; only the first
is read by the classifier on a non-Windows host. -/
structure Flags : Type where
  npmScheme : Bool
  absoluteSpecifiers : Bool
deriving DecidableEq

/-- `SpecifierError` of specifier.rs.  The payload of `UrlError` is the
external URL parser's error value, kept as opaque text. -/
inductive SpecifierError : Type
  | emptySpecifier
  | invalidPackageSpecifier
  | urlError (e : List Char)
  | invalidFileUrl
deriving DecidableEq

/-- `Specifier` of specifier.rs.  Rust's `Cow` payloads compare by
content (`PartialEq` on `Cow` dereferences), so borrow/own status is
not part of the value and is dropped here. -/
inductive Specifier : Type
  | relative (path : List Char)
  | absolute (path : List Char)
  | tilde (path : List Char)
  | hash (fragment : List Char)
  | package (moduleName : List Char) (subpath : List Char)
  | builtin (name : List Char)
  | url (raw : List Char)
deriving DecidableEq

/-- Result of running a Rust function that may panic (`panic`), return
`Err` (`error`) or return `Ok` (`ok`). -/
inductive Outcome (α : Type) : Type
  | panic
  | error (e : SpecifierError)
  | ok (a : α)
deriving DecidableEq

/-- The external collaborators of §6: the builtin registry (a
membership set), the percent-decoder with lossy UTF-8 recovery, and
the generic URL parser together with its file-path conversion
(`Url::parse` / `Url::to_file_path`), with the URL value kept opaque
as text. -/
structure Env : Type where
  builtins : List (List Char)
  decode : List Char → List Char
  urlParse : List Char → Except (List Char) (List Char)
  toFilePath : List Char → Option (List Char)

/-- UTF-8 width in bytes of one character. -/
def charWidth (c : Char) : Nat := c.utf8Size

/-- `byteSplit s n` models the pair `(&s[..n], &s[n..])` of byte-offset
slices: `none` when `n` is out of range or not a character boundary
(where Rust panics). -/
def byteSplit : List Char → Nat → Option (List Char × List Char)
  | s, 0 => some ([], s)
  | [], _ + 1 => none
  | c :: cs, n + 1 =>
    if charWidth c ≤ n + 1 then
      match byteSplit cs (n + 1 - charWidth c) with
      | some (a, b) => some (c :: a, b)
      | none => none
    else none

/-- `&s[..n]`. -/
def byteTake (s : List Char) (n : Nat) : Option (List Char) :=
  (byteSplit s n).map Prod.fst

/-- `&s[n..]`. -/
def byteDrop (s : List Char) (n : Nat) : Option (List Char) :=
  (byteSplit s n).map Prod.snd

/-- `ascii_alpha` of specifier.rs. -/
def ascii_alpha (c : Char) : Bool :=
  ('a' ≤ c ∧ c ≤ 'z') ∨ ('A' ≤ c ∧ c ≤ 'Z')

/-- `char::to_ascii_lowercase`. -/
def toAsciiLower (c : Char) : Char :=
  if 'A' ≤ c ∧ c ≤ 'Z' then Char.ofNat (c.toNat + 32) else c

/-- A character that continues a scheme in `parse_scheme`
(`'a'..='z' | 'A'..='Z' | '0'..='9' | '+' | '-' | '.'`). -/
def schemeContinue (c : Char) : Bool :=
  ('a' ≤ c ∧ c ≤ 'z') ∨ ('A' ≤ c ∧ c ≤ 'Z') ∨ ('0' ≤ c ∧ c ≤ '9') ∨
    c = '+' ∨ c = '-' ∨ c = '.'

/-- The scanning loop of `parse_scheme`.  `acc` holds the characters
scanned so far, reversed.  All characters pushed onto `acc` are ASCII,
so the byte slices `&input[0..i]` and `&input[i+1..]` taken at the
colon are on character boundaries: this loop cannot panic.  Whether
the scheme is returned borrowed or lowercased-owned does not change
its value, since `to_ascii_lowercase` is the identity on an
all-lowercase scheme; we always lowercase. -/
def parse_scheme_go : List Char → List Char → Option (List Char × List Char)
  | _, [] => none
  | acc, c :: cs =>
    if c = ':' then some ((acc.reverse).map toAsciiLower, cs)
    else if schemeContinue c then parse_scheme_go (c :: acc) cs
    else none

/-- `parse_scheme` of specifier.rs: `Err(())` is `none`. -/
def parse_scheme (input : List Char) : Option (List Char × List Char) :=
  match input with
  | [] => none
  | c :: _ => if ascii_alpha c then parse_scheme_go [] input else none

/-- `parse_path` of specifier.rs (the spec's `split_path`): the first
`?`/`#` is located with `chars().position` — a character index — and
the input is then byte-sliced there; `none` models the panic. -/
def parse_path (input : List Char) : Option (List Char × List Char) :=
  match input.findIdx? (fun c => c == '?' || c == '#') with
  | some pos => byteSplit input pos
  | none => some (input, [])

/-- `parse_query` of specifier.rs (the spec's `split_query`): same
character-index/byte-slice mix around the first `#`. -/
def parse_query (input : List Char) : Option (Option (List Char) × List Char) :=
  match input with
  | [] => some (none, [])
  | c :: cs =>
    if c = '?' then
      match (c :: cs).findIdx? (fun x => x == '#') with
      | some pos =>
        match byteSplit (c :: cs) pos with
        | some (a, b) => some (some a, b)
        | none => none
      | none => some (some (c :: cs), [])
    else some (none, c :: cs)

/-- `parse_package_specifier` of specifier.rs (the spec's
`split_package`).  `chars().position` character indices are used as
byte offsets for slicing, modelled by `byteTake`/`byteDrop`. -/
def parse_package_specifier (s : List Char) : Outcome (List Char × List Char) :=
  match s.findIdx? (fun c => c == '/') with
  | none =>
    match s with
    | '@' :: _ => .error .invalidPackageSpecifier
    | _ => .ok (s, [])
  | some idx =>
    match s with
    | '@' :: _ =>
      match byteDrop s (idx + 1) with
      | none => .panic
      | some afterFirst =>
        match afterFirst.findIdx? (fun c => c == '/') with
        | some next =>
          match byteTake s (idx + 1 + next), byteDrop s (idx + next + 2) with
          | some m, some sub => .ok (m, sub)
          | _, _ => .panic
        | none => .ok (s, [])
    | _ =>
      match byteTake s idx, byteDrop s (idx + 1) with
      | some m, some r => .ok (m, r)
      | _, _ => .panic

/-- `parse_package` of specifier.rs: wrap the split into a `Package`
value (borrow/own again dropped). -/
def parse_package (s : List Char) : Outcome Specifier :=
  match parse_package_specifier s with
  | .panic => .panic
  | .error e => .error e
  | .ok (m, sub) => .ok (.package m sub)

/-- `decode_path` of specifier.rs: under ESM/URL split off the query
and percent-decode the path (decoder supplied by `Env`); under CJS the
text is the path, verbatim, with no query. -/
def decode_path (decode : List Char → List Char) (specifier : List Char)
    (t : SpecifierType) : Option (List Char × Option (List Char)) :=
  match t with
  | .cjs => some (specifier, none)
  | _ =>
    match parse_path specifier with
    | none => none
    | some (path, rest) =>
      match parse_query rest with
      | none => none
      | some (query, _) => some (decode path, query)

/-- Wrap a path-shaped intermediate result (`decode_path` output) into
the final classifier outcome, propagating the panic. -/
def pathResult (ctor : List Char → Specifier) :
    Option (List Char × Option (List Char)) →
      Outcome (Specifier × Option (List Char))
  | none => .panic
  | some (p, q) => .ok (ctor p, q)

/-- Pair a package-splitting result with a query, propagating panic
and error (the `?` operator on `parse_package(..)` in the source). -/
def pkgResult : Outcome Specifier → Option (List Char) →
    Outcome (Specifier × Option (List Char))
  | .panic, _ => .panic
  | .error e, _ => .error e
  | .ok sp, q => .ok (sp, q)

/-- `specifier.starts_with("./")` given that the first character is
`'.'`: the remaining text starts with `'/'`. -/
def stripDotSlash (c : Char) (rest : List Char) : List Char :=
  match rest with
  | '/' :: r => r
  | _ => c :: rest

/-- The `~` branch: after dropping `~`, drop one leading path
separator (on a non-Windows host, `'/'`). -/
def stripTilde (rest : List Char) : List Char :=
  match rest with
  | [] => []
  | c :: r => if c = '/' then r else c :: r

/-- Does the text after a leading `'/'` start with another `'/'`
(i.e. the whole specifier starts with `"//"`)? -/
def startsSlash (rest : List Char) : Bool :=
  match rest with
  | '/' :: _ => true
  | _ => false

/-- The scheme dispatch of `Specifier::parse` (the match on the parsed
scheme), given the already-split path and query of the text after the
colon.  `specifier` is the whole original input. -/
def schemeDispatch (env : Env) (specifier scheme path : List Char)
    (query : Option (List Char)) (flags : Flags) :
    Outcome (Specifier × Option (List Char)) :=
  if scheme = ("npm").toList ∧ flags.npmScheme then
    if path ∈ env.builtins then .ok (.builtin path, none)
    else pkgResult (parse_package (env.decode path)) query
  else if scheme = ("node").toList then
    .ok (.builtin path, none)
  else if scheme = ("file").toList then
    match env.urlParse specifier with
    | .error e => .error (.urlError e)
    | .ok u =>
      match env.toFilePath u with
      | none => .error .invalidFileUrl
      | some p => .ok (.absolute p, query)
  else .ok (.url specifier, none)

/-- The bare-specifier branch of `Specifier::parse` under ESM/URL
context.  `parse_path` and `parse_query` run before the scheme match
(Rust evaluates the two `let`s first), so their panics strike for every
scheme; in the no-scheme case `parse_query` runs only on the ESM,
non-builtin path, as in the source. -/
def bareEsmUrl (env : Env) (s : List Char) (t : SpecifierType)
    (flags : Flags) : Outcome (Specifier × Option (List Char)) :=
  match parse_scheme s with
  | some (scheme, rest) =>
    match parse_path rest with
    | none => .panic
    | some (path, rest2) =>
      match parse_query rest2 with
      | none => .panic
      | some (query, _) => schemeDispatch env s scheme path query flags
  | none =>
    match parse_path s with
    | none => .panic
    | some (path, rest) =>
      if t = SpecifierType.esm then
        if path ∈ env.builtins then .ok (.builtin path, none)
        else
          match parse_query rest with
          | none => .panic
          | some (query, _) => pkgResult (parse_package (env.decode path)) query
      else
        pathResult .relative (decode_path env.decode s t)

/-- The bare-specifier branch of `Specifier::parse` (the `_` arm of
the first-byte match).  The `#[cfg(windows)]` absolute-path fast path
of the CJS case is compiled out on a non-Windows host. -/
def bareBranch (env : Env) (s : List Char) (t : SpecifierType)
    (flags : Flags) : Outcome (Specifier × Option (List Char)) :=
  match t with
  | .cjs =>
    if s ∈ env.builtins then .ok (.builtin s, none)
    else pkgResult (parse_package s) none
  | _ => bareEsmUrl env s t flags

/-- `Specifier::parse` of specifier.rs.  The first-byte dispatch is a
first-character dispatch: every byte it compares against is ASCII, so
`specifier.as_bytes()[0]` equals it iff the first character does. -/
def Specifier.parse (env : Env) (specifier : List Char)
    (t : SpecifierType) (flags : Flags) :
    Outcome (Specifier × Option (List Char)) :=
  match specifier with
  | [] => .error .emptySpecifier
  | c :: rest =>
    if c = '.' then
      pathResult .relative (decode_path env.decode (stripDotSlash c rest) t)
    else if c = '~' then
      pathResult .tilde (decode_path env.decode (stripTilde rest) t)
    else if c = '/' then
      if startsSlash rest ∧ t = SpecifierType.url then
        .ok (.url (c :: rest), none)
      else pathResult .absolute (decode_path env.decode (c :: rest) t)
    else if c = '#' then .ok (.hash rest, none)
    else bareBranch env (c :: rest) t flags

/-- `Specifier::to_string` of specifier.rs (the spec's `to_text`).
`Path::as_os_str().to_string_lossy()` is the identity on paths built
from strings. -/
def Specifier.to_string : Specifier → List Char
  | .relative p => p
  | .absolute p => p
  | .tilde p => p
  | .hash s => s
  | .package m sub => if sub = [] then m else m ++ '/' :: sub
  | .builtin b => b
  | .url u => u

/-- `From<&str> for Specifier`: parse under CJS with empty flags and
`unwrap()`.  `none` models the panic of `unwrap` on an `Err` (and a
panic inside `parse` itself). -/
def Specifier.fromStr (env : Env) (s : List Char) : Option Specifier :=
  match Specifier.parse env s SpecifierType.cjs ⟨false, false⟩ with
  | .ok (v, _) => some v
  | _ => none

/-- A concrete instantiation of the external collaborators, used for
closed evaluations: the builtin registry is `{"fs"}`, the
percent-decoder is the identity (correct for inputs containing no
`%`), the URL parser accepts everything and its file-path conversion
always fails (a non-local host). -/
def envW : Env :=
  ⟨[("fs").toList], id, fun _ => Except.ok [], fun _ => none⟩

/-- `Flags::empty()`. -/
def flagsOff : Flags := ⟨false, false⟩

/-- Flags with only `NPM_SCHEME` set. -/
def flagsNpmOn : Flags := ⟨true, false⟩

/-- C1: the claim states that `Specifier::parse` always returns one
well-formed `Specifier` or one documented error and never panics, in
particular on inputs with non-ASCII characters before a `/`, `?` or
`#`.  The code violates this: on `"é?"` under ESM, `parse_path`
computes the *character* position 1 of `'?'` and byte-slices there,
which is inside the two-byte `'é'`, so Rust panics ("byte index 1 is
not a char boundary").  The embedding evaluates to the panic outcome. -/
theorem c1_parse_panics_on_multibyte :
    Specifier.parse envW (("é?").toList) SpecifierType.esm flagsOff =
      Outcome.panic := rfl

/-- C3: the two documented examples of `split_package` hold
(`"@scope/pkg/a/b"` splits into `("@scope/pkg", "a/b")` and
`"@scope"` is `InvalidPackageSpecifier`), but the claim's universal
part fails: on `"é/x"` the character index 1 of `'/'` is used as a
byte offset, which falls inside `'é'`, so the code panics instead of
returning `("é", "x")`. -/
theorem c3_split_package_examples_and_multibyte :
    parse_package_specifier (("@scope/pkg/a/b").toList) =
        Outcome.ok ((("@scope/pkg").toList), (("a/b").toList)) ∧
      parse_package_specifier (("@scope").toList) =
        Outcome.error SpecifierError.invalidPackageSpecifier ∧
      parse_package_specifier (("lodash/fp").toList) =
        Outcome.ok ((("lodash").toList), (("fp").toList)) ∧
      parse_package_specifier (("é/x").toList) = Outcome.panic :=
  ⟨rfl, rfl, rfl, rfl⟩

/-- C4: the claim describes `split_path` as returning the prefix up to
the first `?`/`#` for every input.  On `"éé?"` the code finds `'?'` at
character position 2 but slices at *byte* 2 (the boundary after the
first `'é'`), silently returning `("é", "é?")` instead of the claimed
`("éé", "?")`; and `split_query` on `"?é#x"` panics (byte 2 is inside
`'é'`).  On ASCII inputs the claimed behavior holds, as the last two
conjuncts illustrate. -/
theorem c4_split_misbehaves_on_multibyte :
    parse_path (("éé?").toList) = some ((("é").toList), (("é?").toList)) ∧
      (("é").toList : List Char) ≠ ("éé").toList ∧
      parse_query (("?é#x").toList) = none ∧
      parse_path (("a?b#c").toList) = some ((("a").toList), (("?b#c").toList)) ∧
      parse_query (("?b#c").toList) =
        some (some (("?b").toList), (("#c").toList)) :=
  ⟨rfl, by decide, rfl, rfl, rfl⟩

/-- C8: classifying the empty string fails with `EmptySpecifier` for
every interpretation context, every flags value and any external
collaborators. -/
theorem c8_empty_specifier (env : Env) (t : SpecifierType) (flags : Flags) :
    Specifier.parse env [] t flags =
      Outcome.error SpecifierError.emptySpecifier := rfl

/-- C10: the infallible `From<&str>` conversion parses under CJS with
empty flags and `unwrap`s, so it panics (modelled as `none`) on the
empty string and on `"@scope"`, while the fallible entry point reports
`EmptySpecifier` and `InvalidPackageSpecifier` on the same inputs. -/
theorem c10_from_str_panics_on_bad_inputs :
    Specifier.fromStr envW [] = none ∧
      Specifier.fromStr envW (("@scope").toList) = none ∧
      Specifier.parse envW [] SpecifierType.cjs flagsOff =
        Outcome.error SpecifierError.emptySpecifier ∧
      Specifier.parse envW (("@scope").toList) SpecifierType.cjs flagsOff =
        Outcome.error SpecifierError.invalidPackageSpecifier ∧
      Specifier.fromStr envW (("lodash/fp").toList) =
        some (Specifier.package (("lodash").toList) (("fp").toList)) :=
  ⟨rfl, rfl, rfl, rfl, rfl⟩

/-- Helper: the scheme-present path of the bare ESM/URL branch reduces
to the scheme dispatch once the path/query splits succeed. -/
theorem bareEsmUrl_scheme (env : Env) (t : SpecifierType) (flags : Flags)
    (s scheme rest path rest2 : List Char) (query : Option (List Char))
    (rest3 : List Char)
    (hs : parse_scheme s = some (scheme, rest))
    (hp : parse_path rest = some (path, rest2))
    (hq : parse_query rest2 = some (query, rest3)) :
    bareEsmUrl env s t flags = schemeDispatch env s scheme path query flags := by
  simp only [bareEsmUrl, hs, hp, hq]

/-- C5: under ESM or URL context with the NPM_SCHEME flag set, for an
input `npm:` followed by text whose path/query split succeeds, the
classifier short-circuits to `Builtin` of the *raw* path with no query
when the path is a builtin name (no percent-decoding applied — the
right-hand side does not mention `env.decode` on that branch, for an
arbitrary decoder), and otherwise returns the result of running the
package splitter on the percent-decoded path together with the query
extracted before decoding. -/
theorem c5_npm_scheme_branch (env : Env) (flags : Flags) (t : SpecifierType)
    (rest path rest2 : List Char) (query : Option (List Char))
    (rest3 : List Char)
    (ht : t = SpecifierType.esm ∨ t = SpecifierType.url)
    (hn : flags.npmScheme = true)
    (hp : parse_path rest = some (path, rest2))
    (hq : parse_query rest2 = some (query, rest3)) :
    Specifier.parse env (("npm:").toList ++ rest) t flags =
      if path ∈ env.builtins then Outcome.ok (Specifier.builtin path, none)
      else pkgResult (parse_package (env.decode path)) query := by
  have hs : parse_scheme (("npm:").toList ++ rest) =
      some ((("npm").toList), rest) := rfl
  have hd : schemeDispatch env (("npm:").toList ++ rest) (("npm").toList)
      path query flags =
      if path ∈ env.builtins then Outcome.ok (Specifier.builtin path, none)
      else pkgResult (parse_package (env.decode path)) query := by
    rw [schemeDispatch, if_pos ⟨rfl, hn⟩]
  rcases ht with rfl | rfl
  · show bareEsmUrl env (("npm:").toList ++ rest) SpecifierType.esm flags = _
    rw [bareEsmUrl_scheme env _ flags _ _ rest path rest2 query rest3 hs hp hq, hd]
  · show bareEsmUrl env (("npm:").toList ++ rest) SpecifierType.url flags = _
    rw [bareEsmUrl_scheme env _ flags _ _ rest path rest2 query rest3 hs hp hq, hd]

/-- Witness for C5 at `"npm:lodash/fp?x=1"` with NPM_SCHEME set:
the path is not a builtin, so the split of the decoded path gives
`Package("lodash", "fp")` with query `"?x=1"`. -/
theorem c5_npm_scheme_branch_witness :
    Specifier.parse envW (("npm:lodash/fp?x=1").toList) SpecifierType.esm
      flagsNpmOn =
      Outcome.ok
        (Specifier.package (("lodash").toList) (("fp").toList),
          some (("?x=1").toList)) := by
  have h := c5_npm_scheme_branch envW flagsNpmOn SpecifierType.esm
    (("lodash/fp?x=1").toList) (("lodash/fp").toList) (("?x=1").toList)
    (some (("?x=1").toList)) [] (Or.inl rfl) rfl (by decide) (by decide)
  exact h.trans (by decide)

/-- C6: under ESM or URL context, an input `node:` followed by text
whose path/query split succeeds classifies as `Builtin` of the raw
(non-decoded) path part, and the query is always discarded: the
returned query is `none` for every `query` extracted by the split. -/
theorem c6_node_scheme_branch (env : Env) (flags : Flags) (t : SpecifierType)
    (rest path rest2 : List Char) (query : Option (List Char))
    (rest3 : List Char)
    (ht : t = SpecifierType.esm ∨ t = SpecifierType.url)
    (hp : parse_path rest = some (path, rest2))
    (hq : parse_query rest2 = some (query, rest3)) :
    Specifier.parse env (("node:").toList ++ rest) t flags =
      Outcome.ok (Specifier.builtin path, none) := by
  have hs : parse_scheme (("node:").toList ++ rest) =
      some ((("node").toList), rest) := rfl
  have hd : schemeDispatch env (("node:").toList ++ rest) (("node").toList)
      path query flags = Outcome.ok (Specifier.builtin path, none) := by
    rw [schemeDispatch, if_neg (fun h => by exact absurd h.1 (by decide)),
      if_pos rfl]
  rcases ht with rfl | rfl
  · show bareEsmUrl env (("node:").toList ++ rest) SpecifierType.esm flags = _
    rw [bareEsmUrl_scheme env _ flags _ _ rest path rest2 query rest3 hs hp hq, hd]
  · show bareEsmUrl env (("node:").toList ++ rest) SpecifierType.url flags = _
    rw [bareEsmUrl_scheme env _ flags _ _ rest path rest2 query rest3 hs hp hq, hd]

/-- Witness for C6 at the spec's example `"node:fs?x=1"` under ESM with
default flags: the result is `Builtin("fs")` with no query. -/
theorem c6_node_scheme_branch_witness :
    Specifier.parse envW (("node:fs?x=1").toList) SpecifierType.esm flagsOff =
      Outcome.ok (Specifier.builtin (("fs").toList), none) :=
  c6_node_scheme_branch envW flagsOff SpecifierType.esm
    (("fs?x=1").toList) (("fs").toList) (("?x=1").toList)
    (some (("?x=1").toList)) [] (Or.inl rfl) (by decide) (by decide)

/-- C7: under ESM or URL context, for a `file:` input whose path/query
split succeeds, the classifier hands the *entire original text* to the
external URL parser, surfaces its failure as `UrlError`, fails with
`InvalidFileUrl` exactly when the file-path conversion fails, and
otherwise returns `Absolute` of the converted path together with the
query extracted in the split step. -/
theorem c7_file_scheme_branch (env : Env) (flags : Flags) (t : SpecifierType)
    (rest path rest2 : List Char) (query : Option (List Char))
    (rest3 : List Char)
    (ht : t = SpecifierType.esm ∨ t = SpecifierType.url)
    (hp : parse_path rest = some (path, rest2))
    (hq : parse_query rest2 = some (query, rest3)) :
    Specifier.parse env (("file:").toList ++ rest) t flags =
      match env.urlParse (("file:").toList ++ rest) with
      | .error e => Outcome.error (SpecifierError.urlError e)
      | .ok u =>
        match env.toFilePath u with
        | none => Outcome.error SpecifierError.invalidFileUrl
        | some p => Outcome.ok (Specifier.absolute p, query) := by
  have hs : parse_scheme (("file:").toList ++ rest) =
      some ((("file").toList), rest) := rfl
  have hd : schemeDispatch env (("file:").toList ++ rest) (("file").toList)
      path query flags =
      match env.urlParse (("file:").toList ++ rest) with
      | .error e => Outcome.error (SpecifierError.urlError e)
      | .ok u =>
        match env.toFilePath u with
        | none => Outcome.error SpecifierError.invalidFileUrl
        | some p => Outcome.ok (Specifier.absolute p, query) := by
    rw [schemeDispatch, if_neg (fun h => by exact absurd h.1 (by decide)),
      if_neg (by decide), if_pos rfl]
  rcases ht with rfl | rfl
  · show bareEsmUrl env (("file:").toList ++ rest) SpecifierType.esm flags = _
    rw [bareEsmUrl_scheme env _ flags _ _ rest path rest2 query rest3 hs hp hq, hd]
  · show bareEsmUrl env (("file:").toList ++ rest) SpecifierType.url flags = _
    rw [bareEsmUrl_scheme env _ flags _ _ rest path rest2 query rest3 hs hp hq, hd]

/-- Witness for C7 at the spec's example `"file://remotehost/a"`: with
an external URL parser that accepts it and a file-path conversion that
rejects it (a non-local host), classification fails with
`InvalidFileUrl`. -/
theorem c7_file_scheme_branch_witness :
    Specifier.parse envW (("file://remotehost/a").toList) SpecifierType.esm
      flagsOff = Outcome.error SpecifierError.invalidFileUrl := by
  have h := c7_file_scheme_branch envW flagsOff SpecifierType.esm
    (("//remotehost/a").toList) (("//remotehost/a").toList) [] none []
    (Or.inl rfl) (by decide) (by decide)
  exact h.trans (by decide)

/-- C9: under ESM context, a bare input (first character not `.`, `~`,
`/`, `#`) with no recognized scheme whose path part is a builtin name
classifies as `Builtin` of that path with query `none`, silently
discarding any query string after the path. -/
theorem c9_esm_bare_builtin_discards_query (env : Env) (flags : Flags)
    (c : Char) (s path rest : List Char)
    (hc1 : c ≠ '.') (hc2 : c ≠ '~') (hc3 : c ≠ '/') (hc4 : c ≠ '#')
    (hns : parse_scheme (c :: s) = none)
    (hp : parse_path (c :: s) = some (path, rest))
    (hb : path ∈ env.builtins) :
    Specifier.parse env (c :: s) SpecifierType.esm flags =
      Outcome.ok (Specifier.builtin path, none) := by
  simp only [Specifier.parse]
  rw [if_neg hc1, if_neg hc2, if_neg hc3, if_neg hc4]
  simp only [bareBranch, bareEsmUrl, hns, hp, if_true]
  rw [if_pos hb]

/-- Witness for C9 at `"fs?x=1"` under ESM with `"fs"` a builtin: the
result is `Builtin("fs")` with the query discarded. -/
theorem c9_esm_bare_builtin_discards_query_witness :
    Specifier.parse envW (("fs?x=1").toList) SpecifierType.esm flagsOff =
      Outcome.ok (Specifier.builtin (("fs").toList), none) :=
  c9_esm_bare_builtin_discards_query envW flagsOff 'f'
    (("s?x=1").toList) (("fs").toList) (("?x=1").toList)
    (by decide) (by decide) (by decide) (by decide)
    (by decide) (by decide) (by decide)

/-- C2 counterexample: the claim states that Relative, Absolute, Tilde
and Builtin values produced under ESM/CJS re-classify to a structurally
equal value from their canonical text.  It fails for Tilde:
`classify("~/a.js", ESM)` gives `Tilde("a.js")`, whose text `"a.js"`
re-classifies under ESM as `Package("a.js", "")` — `to_string` drops
the `~` prefix, so the variant is not reproduced. -/
theorem c2_tilde_roundtrip_counterexample :
    Specifier.parse envW (("~/a.js").toList) SpecifierType.esm flagsOff =
        Outcome.ok (Specifier.tilde (("a.js").toList), none) ∧
      Specifier.parse envW
          (Specifier.to_string (Specifier.tilde (("a.js").toList)))
          SpecifierType.esm flagsOff =
        Outcome.ok (Specifier.package (("a.js").toList) [], none) ∧
      Specifier.package (("a.js").toList) [] ≠
        Specifier.tilde (("a.js").toList) :=
  ⟨rfl, rfl, by decide⟩

/-- C2 amended: values produced under CJS context of variant Builtin
or Absolute round-trip unconditionally: if classification under CJS
yields such a value `v`, re-classifying `to_string v` under the same
context and flags yields `(v, none)`.  The CJS branches that produce
them strip nothing, decode nothing and split no query, and `to_string`
is the identity on their payloads.  Relative and Tilde values, and
values produced under ESM, need not round-trip: `to_string` does not
restore a stripped `./` or `~` prefix, re-encode percent-decoded
characters, or re-attach a split-off query (and an ESM-produced
Builtin from a `node:` input or an ESM-decoded Absolute path can
re-classify differently). -/
theorem c2_cjs_builtin_absolute_roundtrip (env : Env) (flags : Flags)
    (s : List Char) (v : Specifier) (q : Option (List Char))
    (h : Specifier.parse env s SpecifierType.cjs flags = Outcome.ok (v, q))
    (hv : (∃ b, v = Specifier.builtin b) ∨ (∃ p, v = Specifier.absolute p)) :
    Specifier.parse env (Specifier.to_string v) SpecifierType.cjs flags =
      Outcome.ok (v, none) := by
  rcases hv with ⟨b, rfl⟩ | ⟨p, rfl⟩
  · cases s with
    | nil => exact absurd h (by simp [Specifier.parse])
    | cons c rest =>
      simp only [Specifier.parse] at h
      by_cases hc1 : c = '.'
      · rw [if_pos hc1] at h
        simp [pathResult, decode_path] at h
      by_cases hc2 : c = '~'
      · rw [if_neg hc1, if_pos hc2] at h
        simp [pathResult, decode_path] at h
      by_cases hc3 : c = '/'
      · rw [if_neg hc1, if_neg hc2, if_pos hc3] at h
        simp [pathResult, decode_path] at h
      by_cases hc4 : c = '#'
      · rw [if_neg hc1, if_neg hc2, if_neg hc3, if_pos hc4] at h
        simp at h
      rw [if_neg hc1, if_neg hc2, if_neg hc3, if_neg hc4] at h
      simp only [bareBranch] at h
      by_cases hmem : (c :: rest) ∈ env.builtins
      · rw [if_pos hmem] at h
        have hb : b = c :: rest ∧ q = none := by
          constructor
          · have := congrArg (fun o => match o with
              | Outcome.ok (Specifier.builtin x, _) => x
              | _ => []) h
            simpa using this.symm
          · have := congrArg (fun o => match o with
              | Outcome.ok (_, qq) => qq
              | _ => none) h
            simpa using this.symm
        obtain ⟨hb, hq⟩ := hb
        subst hb
        show Specifier.parse env (c :: rest) SpecifierType.cjs flags = _
        simp only [Specifier.parse]
        rw [if_neg hc1, if_neg hc2, if_neg hc3, if_neg hc4]
        simp only [bareBranch]
        rw [if_pos hmem]
      · rw [if_neg hmem] at h
        cases hps : parse_package_specifier (c :: rest) with
        | panic => simp [parse_package, pkgResult, hps] at h
        | error e => simp [parse_package, pkgResult, hps] at h
        | ok ms =>
          obtain ⟨m, sub⟩ := ms
          simp [parse_package, pkgResult, hps] at h
  · cases s with
    | nil => exact absurd h (by simp [Specifier.parse])
    | cons c rest =>
      simp only [Specifier.parse] at h
      by_cases hc1 : c = '.'
      · rw [if_pos hc1] at h
        simp [pathResult, decode_path] at h
      by_cases hc2 : c = '~'
      · rw [if_neg hc1, if_pos hc2] at h
        simp [pathResult, decode_path] at h
      by_cases hc3 : c = '/'
      · rw [if_neg hc1, if_neg hc2, if_pos hc3] at h
        simp [pathResult, decode_path] at h
        obtain ⟨hp, hq⟩ := h
        subst hp
        show Specifier.parse env (c :: rest) SpecifierType.cjs flags = _
        simp only [Specifier.parse]
        rw [if_neg hc1, if_neg hc2, if_pos hc3]
        simp [pathResult, decode_path]
      by_cases hc4 : c = '#'
      · rw [if_neg hc1, if_neg hc2, if_neg hc3, if_pos hc4] at h
        simp at h
      rw [if_neg hc1, if_neg hc2, if_neg hc3, if_neg hc4] at h
      simp only [bareBranch] at h
      by_cases hmem : (c :: rest) ∈ env.builtins
      · rw [if_pos hmem] at h
        simp at h
      · rw [if_neg hmem] at h
        cases hps : parse_package_specifier (c :: rest) with
        | panic => simp [parse_package, pkgResult, hps] at h
        | error e => simp [parse_package, pkgResult, hps] at h
        | ok ms =>
          obtain ⟨m, sub⟩ := ms
          simp [parse_package, pkgResult, hps] at h

/-- Witness for the amended C2 at the Absolute value produced from
`"/a/b"` under CJS. -/
theorem c2_cjs_builtin_absolute_roundtrip_witness :
    Specifier.parse envW
        (Specifier.to_string (Specifier.absolute (("/a/b").toList)))
        SpecifierType.cjs flagsOff =
      Outcome.ok (Specifier.absolute (("/a/b").toList), none) :=
  c2_cjs_builtin_absolute_roundtrip envW flagsOff (("/a/b").toList)
    (Specifier.absolute (("/a/b").toList)) none rfl
    (Or.inr ⟨(("/a/b").toList), rfl⟩)
